import Mathlib

/-!
# Verification of the log-mel spectrogram feature extractor

A shallow embedding of the reference DSP pipeline
(`python_models/dsp.py`) and of the interop comparison harness
(`python_models/verify_interop.py`), together with theorems settling the
specification's claims about them.

The reference delegates framing, windowing, the Fourier transform, the mel
filterbank and the decibel conversion to library calls
(`librosa.feature.melspectrogram`, `librosa.power_to_db`); those stages are
modelled here from the specification's description of them.  The
fixed-length normalisation, the error fallback and the comparison harness
are embedded directly from the source.

Samples are modelled as real numbers; a waveform is a `List ℝ`.
-/

open scoped Classical

set_option maxRecDepth 8000

namespace AudioGuard

/-! ## Fixed constants (dsp.py, module level) -/

def SAMPLE_RATE : ℕ := 16000

def CLIP_LENGTH_SAMPLES : ℕ := SAMPLE_RATE

def N_FFT : ℕ := 512

def HOP_LENGTH : ℕ := 160

def N_MELS : ℕ := 40

def FMAX : ℕ := 8000

def FMIN : ℕ := 0

/-! ## Waveform normalizer (dsp.py, lines 33–39)

Truncate to the first `CLIP_LENGTH_SAMPLES` samples when the input is
longer, right-pad with zeros when it is shorter, pass through unchanged
when it is exactly the target length. -/

def fixLength (w : List ℝ) : List ℝ :=
  if w.length > CLIP_LENGTH_SAMPLES then
    w.take CLIP_LENGTH_SAMPLES
  else if w.length < CLIP_LENGTH_SAMPLES then
    w ++ List.replicate (CLIP_LENGTH_SAMPLES - w.length) 0
  else
    w

/-! ## Framer / windower

Modelled from the spec: inside `librosa.feature.melspectrogram` the
waveform is reflect-padded by `N_FFT/2` samples on each side
("centering"), then sliced into frames of `N_FFT` samples advanced by
`HOP_LENGTH`, and each frame is multiplied by a periodic Hann window. -/

/-- Modelled from the spec: reflect-index into a signal of length `L`
(mirror about the ends without repeating the edge sample), as performed by
the symmetric reflect padding of the framing stage.  For the index ranges
the pipeline uses (`L = CLIP_LENGTH_SAMPLES`, pad `N_FFT/2 < L`), a single
reflection suffices. -/
def reflIdx (L : ℕ) (j : ℤ) : ℤ :=
  if j < 0 then -j
  else if (L : ℤ) ≤ j then 2 * ((L : ℤ) - 1) - j
  else j

/-- Modelled from the spec: sample `i` of the reflect-padded waveform,
where index `0` of the padded signal corresponds to index `-(N_FFT/2)` of
the normalized waveform `v`.  Out-of-range reads (impossible for the
pipeline's index ranges) default to `0`. -/
def paddedSample (v : List ℝ) (i : ℕ) : ℝ :=
  v.getD (reflIdx v.length ((i : ℤ) - (N_FFT / 2 : ℕ))).toNat 0

/-- Length of the padded waveform: `N_FFT/2` samples on each side. -/
def paddedLength : ℕ := CLIP_LENGTH_SAMPLES + N_FFT

/-- Number of analysis frames: frames of `N_FFT` samples advanced by
`HOP_LENGTH` that fit entirely inside the padded waveform. -/
def nFrames : ℕ := (paddedLength - N_FFT) / HOP_LENGTH + 1

/-- Modelled from the spec: sample `n` of frame `t` of normalized
waveform `v` (before windowing). -/
def frameSample (v : List ℝ) (t n : ℕ) : ℝ :=
  paddedSample v (t * HOP_LENGTH + n)

/-- Modelled from the spec: the periodic Hann window of length `N_FFT`,
`w[n] = 0.5 − 0.5·cos(2π·n / N_FFT)`. -/
noncomputable def hannWindow (n : ℕ) : ℝ :=
  1 / 2 - 1 / 2 * Real.cos (2 * Real.pi * n / N_FFT)

/-- The symmetric (textbook) Hann window of the same length, stated from
the spec's words only for comparison with the periodic variant actually
used: `w[n] = 0.5 − 0.5·cos(2π·n / (N_FFT − 1))`. -/
noncomputable def hannSymmetric (n : ℕ) : ℝ :=
  1 / 2 - 1 / 2 * Real.cos (2 * Real.pi * n / (N_FFT - 1))

/-- Modelled from the spec: sample `n` of windowed frame `t`. -/
noncomputable def windowedFrame (v : List ℝ) (t : ℕ) : ℕ → ℝ :=
  fun n => hannWindow n * frameSample v t n

/-! ## Spectral analyzer

Modelled from the spec: the unnormalized real-input discrete Fourier
transform of each windowed frame, truncated to the non-redundant
`N_FFT/2 + 1` bins, with power = `real² + imag²` per bin.  The definition
below is the direct evaluation; the spec requires any faster algorithm to
agree with it numerically, so it is the semantics of the stage. -/

/-- Real part of DFT bin `k` of a frame `x` (unity normalization). -/
noncomputable def dftRe (x : ℕ → ℝ) (k : ℕ) : ℝ :=
  ∑ n ∈ Finset.range N_FFT, x n * Real.cos (2 * Real.pi * k * n / N_FFT)

/-- Imaginary part of DFT bin `k` of a frame `x` (unity normalization). -/
noncomputable def dftIm (x : ℕ → ℝ) (k : ℕ) : ℝ :=
  -∑ n ∈ Finset.range N_FFT, x n * Real.sin (2 * Real.pi * k * n / N_FFT)

/-- Power at bin `k`: squared magnitude of the DFT, `real² + imag²`. -/
noncomputable def powerBin (x : ℕ → ℝ) (k : ℕ) : ℝ :=
  dftRe x k ^ 2 + dftIm x k ^ 2

/-- The power spectrum of a frame: the `N_FFT/2 + 1` non-redundant bins. -/
noncomputable def powerSpectrum (x : ℕ → ℝ) : List ℝ :=
  (List.range (N_FFT / 2 + 1)).map (powerBin x)

/-! ## Mel filterbank

Modelled from the spec: `N_MELS` triangular filters over the
`N_FFT/2 + 1` linear bins, edges placed uniformly in mel space between
`mel(FMIN)` and `mel(FMAX)`, each row divided by its bandwidth in Hz
(the "Slaney" area normalization). -/

/-- Mel value of a frequency in Hz: `mel(f) = 2595·log10(1 + f/700)`. -/
noncomputable def melOfHz (f : ℝ) : ℝ :=
  2595 * Real.logb 10 (1 + f / 700)

/-- Frequency in Hz of a mel value (inverse of `melOfHz`). -/
noncomputable def hzOfMel (m : ℝ) : ℝ :=
  700 * ((10 : ℝ) ^ (m / 2595) - 1)

/-- Edge frequency `i` (for `i = 0 .. N_MELS + 1`): `N_MELS + 2` points
uniform in mel space between `mel(FMIN)` and `mel(FMAX)`, mapped back
to Hz. -/
noncomputable def melEdgeHz (i : ℕ) : ℝ :=
  hzOfMel (melOfHz (FMIN : ℝ) +
    i * (melOfHz (FMAX : ℝ) - melOfHz (FMIN : ℝ)) / (N_MELS + 1))

/-- Center frequency in Hz of FFT bin `k`. -/
noncomputable def binFreq (k : ℕ) : ℝ :=
  k * (SAMPLE_RATE : ℝ) / N_FFT

/-- Unnormalized triangular response of filter `m` at bin `k`: rises from
0 at edge `m` to 1 at edge `m+1`, falls back to 0 at edge `m+2`. -/
noncomputable def triangleWeight (m k : ℕ) : ℝ :=
  max 0 (min ((binFreq k - melEdgeHz m) / (melEdgeHz (m + 1) - melEdgeHz m))
             ((melEdgeHz (m + 2) - binFreq k) / (melEdgeHz (m + 2) - melEdgeHz (m + 1))))

/-- Entry `(m, k)` of the mel filterbank matrix: the triangle scaled by
`2 / (bandwidth of filter m in Hz)` (Slaney area normalization). -/
noncomputable def melFilter (m k : ℕ) : ℝ :=
  2 / (melEdgeHz (m + 2) - melEdgeHz m) * triangleWeight m k

/-- Mel-band energy of band `m` at frame `t` of normalized waveform `v`:
filterbank row dotted with the frame's power spectrum. -/
noncomputable def melEnergy (v : List ℝ) (t m : ℕ) : ℝ :=
  ∑ k ∈ Finset.range (N_FFT / 2 + 1), melFilter m k * powerBin (windowedFrame v t) k

/-! ## Log compressor

Modelled from the spec: `librosa.power_to_db(S, ref=np.max)` with
`amin = 1e-10` and `top_db = 80`, taking the whole mel-energy matrix at
once.  The reference value (the global matrix maximum) is floored by
`amin` exactly as each entry is; this double floor is what makes the
all-zero clip finite (§7, §8 zero-input property) — flooring only the
numerator of §4.5's quotient would leave the zero-power edge case
non-finite. -/

/-- The dB floor constant `amin = 1e-10`. -/
noncomputable def amin : ℝ := 1 / 10 ^ 10

/-- The dynamic-range bound `top_db = 80`. -/
def top_db : ℝ := 80

/-- The index set of a mel-energy (or feature) matrix:
frames `0 ≤ t < nFrames` by bands `0 ≤ m < N_MELS`. -/
def idxSet : Finset (ℕ × ℕ) := Finset.range nFrames ×ˢ Finset.range N_MELS

/-- Maximum entry of a matrix over the pipeline's index set. -/
noncomputable def gmax (f : ℕ → ℕ → ℝ) : ℝ :=
  idxSet.sup'
    (by
      refine ⟨(0, 0), ?_⟩
      unfold idxSet
      exact Finset.mem_product.mpr
        ⟨Finset.mem_range.mpr (by decide), Finset.mem_range.mpr (by decide)⟩)
    fun p => f p.1 p.2

/-- Unclipped dB value of entry `(t, m)` of a mel-energy matrix `E`:
`10·log10(max(E t m, amin)) − 10·log10(max(ref, amin))` with
`ref = max(E)` over the whole matrix. -/
noncomputable def dbRaw (E : ℕ → ℕ → ℝ) (t m : ℕ) : ℝ :=
  10 * Real.logb 10 (max (E t m) amin) - 10 * Real.logb 10 (max (gmax E) amin)

/-- Entry `(t, m)` after the `top_db` clip: no value lies more than
`top_db` below the dB matrix's maximum. -/
noncomputable def dbClipped (E : ℕ → ℕ → ℝ) (t m : ℕ) : ℝ :=
  max (dbRaw E t m) (gmax (dbRaw E) - top_db)

/-! ## Feature assembler and full pipeline (dsp.py, lines 41–61) -/

/-- Feature value at frame `t`, band `m`, for a normalized waveform. -/
noncomputable def featuresOf (v : List ℝ) : ℕ → ℕ → ℝ :=
  dbClipped (melEnergy v)

/-- Assemble the feature matrix of a normalized waveform, frames as rows
and mel bands as columns (the source transposes the library's mel-major
output into this frame-major layout). -/
noncomputable def assemble (v : List ℝ) : List (List ℝ) :=
  (List.range nFrames).map fun t => (List.range N_MELS).map (featuresOf v t)

/-- The full pipeline on an arbitrary-length waveform: normalize to
`CLIP_LENGTH_SAMPLES`, then frame, window, transform, aggregate,
compress and assemble. -/
noncomputable def featureMatrix (w : List ℝ) : List (List ℝ) :=
  assemble (fixLength w)

/-- Outcome of the audio-loading step (dsp.py, lines 21–31): either a
decoded waveform or a loader failure of any kind. -/
inductive LoadResult where
  | ok (w : List ℝ)
  | err

/-- The top-level entry point of dsp.py: on a successful load, the
feature matrix of the loaded waveform; on any loader exception, the
hard-coded all-zero `98 × N_MELS` fallback. -/
noncomputable def compute_log_mel_spectrogram : LoadResult → List (List ℝ)
  | .ok w => featureMatrix w
  | .err => List.replicate 98 (List.replicate N_MELS 0)

/-! ## Equivalence verifier (verify_interop.py, `compare_outputs`)

The comparison logic is embedded from the source: shape check first (no
value comparison on mismatch), then element-wise closeness, reporting
mean squared error on success and max/mean absolute difference plus the
first five values of row 0 of each matrix on failure.  The element-wise
closeness predicate is modelled from the spec's comparison contract:
`|a − b| ≤ tolerance` with `tolerance = 1e-4` (in this real-number model
every value is finite). -/

/-- A dense real matrix with explicit shape, the unit the verifier
compares. -/
structure Mat where
  rows : ℕ
  cols : ℕ
  entry : ℕ → ℕ → ℝ

/-- The shape of a matrix, as reported by the verifier. -/
def Mat.shape (A : Mat) : ℕ × ℕ := (A.rows, A.cols)

/-- The verifier's absolute tolerance, `1e-4`. -/
noncomputable def tolerance : ℝ := 1 / 10 ^ 4

/-- Modelled from the spec: the element-wise agreement test of §4.7,
`|a − b| ≤ tolerance` at every index. -/
def closeAll (A B : Mat) : Prop :=
  ∀ t < A.rows, ∀ m < A.cols, |A.entry t m - B.entry t m| ≤ tolerance

/-- Index set of a matrix of the verifier. -/
def Mat.idx (A : Mat) : Finset (ℕ × ℕ) :=
  Finset.range A.rows ×ˢ Finset.range A.cols

/-- Mean squared error between two same-shaped matrices, the success
diagnostic. -/
noncomputable def mse (A B : Mat) : ℝ :=
  (∑ p ∈ A.idx, (A.entry p.1 p.2 - B.entry p.1 p.2) ^ 2) / (A.rows * A.cols)

/-- Maximum absolute difference, the first failure diagnostic. -/
noncomputable def maxAbsDiff (A B : Mat) : ℝ :=
  if h : A.idx.Nonempty then
    A.idx.sup' h fun p => |A.entry p.1 p.2 - B.entry p.1 p.2|
  else 0

/-- Mean absolute difference, the second failure diagnostic. -/
noncomputable def meanAbsDiff (A B : Mat) : ℝ :=
  (∑ p ∈ A.idx, |A.entry p.1 p.2 - B.entry p.1 p.2|) / (A.rows * A.cols)

/-- The first five values of row 0 of a matrix, the sample printed on a
value mismatch. -/
def sample5 (A : Mat) : List ℝ :=
  (List.range 5).map (A.entry 0)

/-- The observable outcome of one run of `compare_outputs`. -/
inductive CompareResult where
  | shapeMismatch (pyShape cppShape : ℕ × ℕ)
  | success (meanSquaredError : ℝ)
  | valueMismatch (maxDiff meanDiff : ℝ) (pySample cppSample : List ℝ)

/-- The comparison logic of `compare_outputs` (verify_interop.py): shape
check, then element-wise value check; MSE reported on success, max/mean
difference and value samples on failure. -/
noncomputable def compare_outputs (A B : Mat) : CompareResult :=
  if A.shape ≠ B.shape then
    .shapeMismatch A.shape B.shape
  else if closeAll A B then
    .success (mse A B)
  else
    .valueMismatch (maxAbsDiff A B) (meanAbsDiff A B) (sample5 A) (sample5 B)

/-! ## Helper lemmas -/

theorem getD_replicate {α : Type} (n j : ℕ) (a d : α) :
    (List.replicate n a).getD j d = if j < n then a else d := by
  rcases Nat.lt_or_ge j n with h | h
  · simp [List.getD_eq_getElem?_getD, List.getElem?_replicate, h]
  · simp [List.getD_eq_getElem?_getD, List.getElem?_replicate, Nat.not_lt.mpr h]

theorem getD_replicate_zero (n j : ℕ) : (List.replicate n (0 : ℝ)).getD j 0 = 0 := by
  rw [getD_replicate]
  split <;> rfl

theorem getD_map_range {α : Type} (f : ℕ → α) (d : α) (n k : ℕ) :
    ((List.range n).map f).getD k d = if k < n then f k else d := by
  rcases Nat.lt_or_ge k n with h | h
  · simp [List.getD_eq_getElem?_getD, List.getElem?_map, List.getElem?_range, h]
  · rw [List.getD_eq_getElem?_getD, List.getElem?_eq_none (by simpa using h),
      if_neg (Nat.not_lt.mpr h)]
    rfl

theorem nFrames_val : nFrames = 101 := by decide

theorem fixLength_length (w : List ℝ) : (fixLength w).length = CLIP_LENGTH_SAMPLES := by
  unfold fixLength
  split
  · simp; omega
  · split
    · simp; omega
    · omega

theorem idxSet_nonempty : idxSet.Nonempty := by
  refine ⟨(0, 0), ?_⟩
  unfold idxSet
  exact Finset.mem_product.mpr
    ⟨Finset.mem_range.mpr (by decide), Finset.mem_range.mpr (by decide)⟩

theorem assemble_length (v : List ℝ) : (assemble v).length = nFrames := by
  simp [assemble]

theorem assemble_row_lengths (v : List ℝ) :
    (assemble v).map List.length = List.replicate nFrames N_MELS := by
  have h : (List.length ∘ fun t => List.map (featuresOf v t) (List.range N_MELS))
      = fun _ : ℕ => N_MELS := by
    funext t
    simp
  simp [assemble, List.map_map, h]

/-! ## Claim theorems -/

/-- C1, counterexample: the pipeline's feature matrix for a 1-second
waveform has 101 rows, while the claimed formula
`1 + floor(padded_length / HOP_LENGTH)` evaluates to 104. -/
theorem frame_count_formula_counterexample :
    (featureMatrix (List.replicate CLIP_LENGTH_SAMPLES 0)).length = 101 ∧
    1 + paddedLength / HOP_LENGTH = 104 ∧ (101 : ℕ) ≠ 104 := by
  refine ⟨?_, by decide, by decide⟩
  rw [featureMatrix, assemble_length, nFrames_val]

/-- C1 (amended): for every input waveform the feature matrix has shape
`(nFrames, N_MELS)`, where `nFrames = 1 + floor((padded_length − N_FFT) /
HOP_LENGTH) = 1 + floor(CLIP_LENGTH_SAMPLES / HOP_LENGTH) = 101` counts
the frames of `N_FFT` samples, advanced by `HOP_LENGTH`, that fit inside
the reflect-padded waveform of `padded_length = CLIP_LENGTH_SAMPLES +
N_FFT` samples. -/
theorem featureMatrix_shape (w : List ℝ) :
    (featureMatrix w).length = nFrames ∧
    (featureMatrix w).map List.length = List.replicate nFrames N_MELS ∧
    nFrames = 1 + (paddedLength - N_FFT) / HOP_LENGTH ∧
    nFrames = 1 + CLIP_LENGTH_SAMPLES / HOP_LENGTH ∧
    nFrames = 101 ∧
    ∀ t : ℕ, t < nFrames ↔ t * HOP_LENGTH + N_FFT ≤ paddedLength := by
  refine ⟨?_, ?_, by decide, by decide, by decide, ?_⟩
  · rw [featureMatrix, assemble_length]
  · rw [featureMatrix, assemble_row_lengths]
  · intro t
    have h1 : nFrames = 101 := nFrames_val
    have h2 : HOP_LENGTH = 160 := rfl
    have h3 : N_FFT = 512 := rfl
    have h4 : paddedLength = 16512 := rfl
    rw [h1, h2, h3, h4]
    omega

/-- C2: the waveform normalizer always returns exactly
`CLIP_LENGTH_SAMPLES` samples: it truncates a longer input to its first
`CLIP_LENGTH_SAMPLES` samples, right-pads a shorter input with zeros,
and passes an exact-length input through unchanged; it is total (no
error) on every input length. -/
theorem fixLength_spec (w : List ℝ) :
    (fixLength w).length = CLIP_LENGTH_SAMPLES ∧
    (CLIP_LENGTH_SAMPLES < w.length → fixLength w = w.take CLIP_LENGTH_SAMPLES) ∧
    (w.length < CLIP_LENGTH_SAMPLES →
      fixLength w = w ++ List.replicate (CLIP_LENGTH_SAMPLES - w.length) 0) ∧
    (w.length = CLIP_LENGTH_SAMPLES → fixLength w = w) := by
  refine ⟨fixLength_length w, ?_, ?_, ?_⟩
  · intro h
    unfold fixLength
    rw [if_pos h]
  · intro h
    unfold fixLength
    rw [if_neg (by omega), if_pos h]
  · intro h
    unfold fixLength
    rw [if_neg (by omega), if_neg (by omega)]

/-- C2, witness: a one-sample input is right-padded with 15999 zeros. -/
theorem fixLength_spec_witness :
    ([(1 : ℝ)].length < CLIP_LENGTH_SAMPLES) ∧
    fixLength [(1 : ℝ)] = [(1 : ℝ)] ++ List.replicate (CLIP_LENGTH_SAMPLES - 1) 0 := by
  have h : ([(1 : ℝ)].length < CLIP_LENGTH_SAMPLES) := by
    simp [CLIP_LENGTH_SAMPLES, SAMPLE_RATE]
  exact ⟨h, by simpa using (fixLength_spec [(1 : ℝ)]).2.2.1 h⟩

/-- C3: a waveform of length `CLIP_LENGTH_SAMPLES + k` (k > 0) and one
of length `CLIP_LENGTH_SAMPLES` that agree on the first
`CLIP_LENGTH_SAMPLES` samples produce identical feature matrices. -/
theorem featureMatrix_truncation_agree (k : ℕ) (w₁ w₂ : List ℝ)
    (hk : 0 < k) (h₁ : w₁.length = CLIP_LENGTH_SAMPLES + k)
    (h₂ : w₂.length = CLIP_LENGTH_SAMPLES)
    (hagree : w₁.take CLIP_LENGTH_SAMPLES = w₂) :
    featureMatrix w₁ = featureMatrix w₂ := by
  have e₁ : fixLength w₁ = w₁.take CLIP_LENGTH_SAMPLES := by
    unfold fixLength
    rw [if_pos (by omega)]
  have e₂ : fixLength w₂ = w₂ := by
    unfold fixLength
    rw [if_neg (by omega), if_neg (by omega)]
  rw [featureMatrix, featureMatrix, e₁, e₂, hagree]

/-- C3, witness: the all-zero waveforms of lengths 16001 and 16000. -/
theorem featureMatrix_truncation_agree_witness :
    (0 < 1 ∧ (List.replicate (CLIP_LENGTH_SAMPLES + 1) (0 : ℝ)).length
        = CLIP_LENGTH_SAMPLES + 1 ∧
      (List.replicate CLIP_LENGTH_SAMPLES (0 : ℝ)).length = CLIP_LENGTH_SAMPLES ∧
      (List.replicate (CLIP_LENGTH_SAMPLES + 1) (0 : ℝ)).take CLIP_LENGTH_SAMPLES
        = List.replicate CLIP_LENGTH_SAMPLES 0) ∧
    featureMatrix (List.replicate (CLIP_LENGTH_SAMPLES + 1) (0 : ℝ))
      = featureMatrix (List.replicate CLIP_LENGTH_SAMPLES (0 : ℝ)) := by
  have htake : (List.replicate (CLIP_LENGTH_SAMPLES + 1) (0 : ℝ)).take CLIP_LENGTH_SAMPLES
      = List.replicate CLIP_LENGTH_SAMPLES 0 := by
    rw [List.take_replicate]
    norm_num
  exact ⟨⟨Nat.zero_lt_one, by simp, by simp, htake⟩,
    featureMatrix_truncation_agree 1 _ _ Nat.zero_lt_one (by simp) (by simp) htake⟩

/-- C8: the pipeline is a pure function of its input — two runs on equal
inputs yield identical output matrices (no hidden state between calls). -/
theorem featureMatrix_two_run_equal (w₁ w₂ : List ℝ) (h : w₁ = w₂) :
    featureMatrix w₁ = featureMatrix w₂ := by
  rw [h]

/-- C8, witness: two runs on the all-zero clip. -/
theorem featureMatrix_two_run_equal_witness :
    featureMatrix (List.replicate CLIP_LENGTH_SAMPLES (0 : ℝ))
      = featureMatrix (List.replicate CLIP_LENGTH_SAMPLES (0 : ℝ)) :=
  featureMatrix_two_run_equal _ _ rfl

/-- C4: every frame is windowed by the periodic Hann window
`w[n] = 0.5 − 0.5·cos(2π·n / N_FFT)`; the window vanishes at `n = 0`,
reaches exactly 1 at `n = N_FFT/2` (as the periodic variant does), and
differs there from the symmetric textbook variant, which never attains 1
at an integer sample of this length. -/
theorem hann_window_periodic (v : List ℝ) (t n : ℕ) :
    windowedFrame v t n
      = (1 / 2 - 1 / 2 * Real.cos (2 * Real.pi * n / N_FFT)) * frameSample v t n ∧
    hannWindow 0 = 0 ∧
    hannWindow (N_FFT / 2) = 1 ∧
    hannSymmetric (N_FFT / 2) ≠ 1 := by
  refine ⟨rfl, ?_, ?_, ?_⟩
  · simp [hannWindow]
  · rw [hannWindow, show ((N_FFT / 2 : ℕ) : ℝ) = 256 by norm_num [N_FFT],
      show ((N_FFT : ℕ) : ℝ) = 512 by norm_num [N_FFT],
      show (2 * Real.pi * 256 / 512 : ℝ) = Real.pi by ring, Real.cos_pi]
    norm_num
  · rw [hannSymmetric, show ((N_FFT / 2 : ℕ) : ℝ) = 256 by norm_num [N_FFT],
      show ((N_FFT : ℕ) : ℝ) - 1 = 511 by norm_num [N_FFT]]
    intro h
    have hc : Real.cos (2 * Real.pi * 256 / 511) = -1 := by linarith
    rw [Real.cos_eq_neg_one_iff] at hc
    obtain ⟨k, hk⟩ := hc
    have hpi : Real.pi ≠ 0 := Real.pi_ne_zero
    have h2 : Real.pi * ((1 + k * 2) * 511) = Real.pi * 512 := by
      field_simp at hk
      nlinarith [hk]
    have h3 : ((1 + k * 2) * 511 : ℝ) = 512 := by
      have := mul_left_cancel₀ hpi h2
      linarith
    have hz : ((1 + k * 2) * 511 : ℤ) = 512 := by exact_mod_cast h3
    omega

/-- C5: the power spectrum of a frame has exactly `N_FFT/2 + 1 = 257`
bins, and each bin equals `real² + imag²` of the unnormalized real-input
DFT at that bin (the direct-evaluation sums `dftRe`/`dftIm`, which any
transform algorithm must match), hence is non-negative. -/
theorem powerSpectrum_spec (x : ℕ → ℝ) :
    (powerSpectrum x).length = N_FFT / 2 + 1 ∧
    N_FFT / 2 + 1 = 257 ∧
    ∀ k, k < N_FFT / 2 + 1 →
      (powerSpectrum x).getD k 0 = dftRe x k ^ 2 + dftIm x k ^ 2 ∧
      0 ≤ (powerSpectrum x).getD k 0 := by
  refine ⟨by simp [powerSpectrum], by decide, ?_⟩
  intro k hk
  rw [powerSpectrum, getD_map_range, if_pos hk]
  refine ⟨rfl, ?_⟩
  rw [powerBin]
  positivity

/-- C5, witness: bin 0 of the all-zero frame. -/
theorem powerSpectrum_spec_witness :
    ((0 : ℕ) < N_FFT / 2 + 1) ∧
    ((powerSpectrum fun _ => (0 : ℝ)).getD 0 0
        = dftRe (fun _ => 0) 0 ^ 2 + dftIm (fun _ => 0) 0 ^ 2 ∧
      0 ≤ (powerSpectrum fun _ => (0 : ℝ)).getD 0 0) :=
  ⟨by decide, (powerSpectrum_spec fun _ => 0).2.2 0 (by decide)⟩

/-! ## Lemmas about the matrix maximum -/

theorem mem_idxSet {t m : ℕ} (ht : t < nFrames) (hm : m < N_MELS) :
    (t, m) ∈ idxSet := by
  unfold idxSet
  exact Finset.mem_product.mpr ⟨Finset.mem_range.mpr ht, Finset.mem_range.mpr hm⟩

theorem le_gmax (f : ℕ → ℕ → ℝ) {t m : ℕ} (ht : t < nFrames) (hm : m < N_MELS) :
    f t m ≤ gmax f :=
  Finset.le_sup' (fun p => f p.1 p.2) (mem_idxSet ht hm)

theorem gmax_le (f : ℕ → ℕ → ℝ) {c : ℝ}
    (h : ∀ t < nFrames, ∀ m < N_MELS, f t m ≤ c) : gmax f ≤ c := by
  refine Finset.sup'_le _ _ ?_
  rintro ⟨t, m⟩ hp
  simp only [idxSet, Finset.mem_product, Finset.mem_range] at hp
  exact h t hp.1 m hp.2

theorem gmax_const (c : ℝ) : gmax (fun _ _ => c) = c :=
  Finset.sup'_const idxSet_nonempty c

theorem gmax_congr {f g : ℕ → ℕ → ℝ}
    (h : ∀ t < nFrames, ∀ m < N_MELS, f t m = g t m) : gmax f = gmax g := by
  refine Finset.sup'_congr idxSet_nonempty rfl ?_
  rintro ⟨t, m⟩ hp
  simp only [idxSet, Finset.mem_product, Finset.mem_range] at hp
  exact h t hp.1 m hp.2

theorem amin_pos : 0 < amin := by
  rw [amin]
  norm_num

/-- C6 (amended): the log compressor computes each dB entry as
`10·log10(max(power, amin)) − 10·log10(max(ref, amin))` with
`ref = max(E)` over the entire matrix; whenever `ref ≥ amin` (every
matrix whose maximum is not below the floor) this equals the quotient
form `10·log10(max(power, amin) / ref)`, and after the `top_db` clip no
entry lies more than 80 below the output matrix's own maximum.  The
compressor is exactly the stage the pipeline applies to the mel-energy
matrix. -/
theorem log_compressor_spec (E : ℕ → ℕ → ℝ) (t m : ℕ) :
    (amin ≤ gmax E →
      dbRaw E t m = 10 * Real.logb 10 (max (E t m) amin / gmax E)) ∧
    gmax (dbClipped E) - top_db ≤ dbClipped E t m ∧
    (∀ w : List ℝ, featuresOf w = dbClipped (melEnergy w)) := by
  refine ⟨?_, ?_, fun _ => rfl⟩
  · intro href
    have h₀ : (0 : ℝ) < amin := amin_pos
    have hnum : max (E t m) amin ≠ 0 := by
      have : amin ≤ max (E t m) amin := le_max_right _ _
      linarith
    have hden : gmax E ≠ 0 := by linarith
    rw [dbRaw, Real.logb_div hnum hden, max_eq_left href]
    ring
  · have hclip : gmax (dbClipped E) ≤ gmax (dbRaw E) := by
      refine gmax_le _ ?_
      intro t' ht' m' hm'
      rw [dbClipped]
      refine max_le (le_gmax _ ht' hm') ?_
      rw [top_db]
      linarith
    have hentry : gmax (dbRaw E) - top_db ≤ dbClipped E t m := by
      rw [dbClipped]
      exact le_max_right _ _
    linarith

/-- C6, counterexample: on the constant matrix with every mel energy
equal to `amin/10` (a clip whose loudest band is below the floor), the
unclipped dB value is 0, while the claimed quotient form
`10·log10(max(power, amin) / ref)` evaluates to 10. -/
theorem log_compressor_formula_counterexample :
    dbRaw (fun _ _ => amin / 10) 0 0 = 0 ∧
    10 * Real.logb 10 (max ((amin : ℝ) / 10) amin / gmax fun _ _ => amin / 10) = 10 ∧
    dbRaw (fun _ _ => amin / 10) 0 0
      ≠ 10 * Real.logb 10 (max ((amin : ℝ) / 10) amin / gmax fun _ _ => amin / 10) := by
  have h₀ : (0 : ℝ) < amin := amin_pos
  have hgc : gmax (fun _ _ => amin / 10) = amin / 10 := gmax_const _
  have hmax : max ((amin : ℝ) / 10) amin = amin := max_eq_right (by linarith)
  have h1 : dbRaw (fun _ _ => amin / 10) 0 0 = 0 := by
    rw [dbRaw, hgc, hmax]
    ring
  have h2 : 10 * Real.logb 10 (max ((amin : ℝ) / 10) amin / gmax fun _ _ => amin / 10)
      = 10 := by
    rw [hgc, hmax, show (amin : ℝ) / (amin / 10) = 10 by field_simp,
      Real.logb_self_eq_one (by norm_num)]
    norm_num
  refine ⟨h1, h2, ?_⟩
  rw [h1, h2]
  norm_num

/-- C6, witness: the constant all-ones mel-energy matrix at entry
`(0, 0)`. -/
theorem log_compressor_spec_witness :
    (amin ≤ gmax fun _ _ => (1 : ℝ)) ∧
    (dbRaw (fun _ _ => (1 : ℝ)) 0 0
      = 10 * Real.logb 10 (max ((1 : ℝ)) amin / gmax fun _ _ => (1 : ℝ))) ∧
    gmax (dbClipped fun _ _ => (1 : ℝ)) - top_db
      ≤ dbClipped (fun _ _ => (1 : ℝ)) 0 0 := by
  have href : amin ≤ gmax fun _ _ => (1 : ℝ) := by
    rw [gmax_const, amin]
    norm_num
  have h := log_compressor_spec (fun _ _ => (1 : ℝ)) 0 0
  exact ⟨href, h.1 href, h.2.1⟩

/-! ## The all-zero clip -/

theorem fixLength_replicate_zero :
    fixLength (List.replicate CLIP_LENGTH_SAMPLES 0) = List.replicate CLIP_LENGTH_SAMPLES 0 := by
  unfold fixLength
  rw [List.length_replicate, if_neg (lt_irrefl _), if_neg (lt_irrefl _)]

theorem paddedSample_replicate_zero (i : ℕ) :
    paddedSample (List.replicate CLIP_LENGTH_SAMPLES 0) i = 0 := by
  rw [paddedSample, getD_replicate]
  split <;> rfl

theorem windowedFrame_replicate_zero (t n : ℕ) :
    windowedFrame (List.replicate CLIP_LENGTH_SAMPLES 0) t n = 0 := by
  rw [windowedFrame, frameSample, paddedSample_replicate_zero, mul_zero]

theorem dftRe_zero_frame (t k : ℕ) :
    dftRe (windowedFrame (List.replicate CLIP_LENGTH_SAMPLES 0) t) k = 0 := by
  rw [dftRe]
  refine Finset.sum_eq_zero ?_
  intro n _
  rw [windowedFrame_replicate_zero, zero_mul]

theorem dftIm_zero_frame (t k : ℕ) :
    dftIm (windowedFrame (List.replicate CLIP_LENGTH_SAMPLES 0) t) k = 0 := by
  rw [dftIm, neg_eq_zero]
  refine Finset.sum_eq_zero ?_
  intro n _
  rw [windowedFrame_replicate_zero, zero_mul]

theorem powerBin_zero_frame (t k : ℕ) :
    powerBin (windowedFrame (List.replicate CLIP_LENGTH_SAMPLES 0) t) k = 0 := by
  rw [powerBin, dftRe_zero_frame, dftIm_zero_frame]
  ring

theorem melEnergy_replicate_zero (t m : ℕ) :
    melEnergy (List.replicate CLIP_LENGTH_SAMPLES 0) t m = 0 := by
  rw [melEnergy]
  refine Finset.sum_eq_zero ?_
  intro k _
  rw [powerBin_zero_frame, mul_zero]

theorem gmax_melEnergy_zero :
    gmax (melEnergy (List.replicate CLIP_LENGTH_SAMPLES 0)) = 0 := by
  rw [gmax_congr (g := fun _ _ => (0 : ℝ))
      (fun t _ m _ => melEnergy_replicate_zero t m), gmax_const]

theorem dbRaw_zero_clip (t m : ℕ) :
    dbRaw (melEnergy (List.replicate CLIP_LENGTH_SAMPLES 0)) t m = 0 := by
  rw [dbRaw, melEnergy_replicate_zero, gmax_melEnergy_zero]
  ring

theorem featuresOf_zero_clip (t m : ℕ) :
    featuresOf (List.replicate CLIP_LENGTH_SAMPLES 0) t m = 0 := by
  rw [featuresOf, dbClipped, dbRaw_zero_clip,
    gmax_congr (g := fun _ _ => (0 : ℝ)) (fun t' _ m' _ => dbRaw_zero_clip t' m'),
    gmax_const, top_db]
  rw [max_eq_left (by norm_num)]

/-- Every entry of the feature matrix of the all-zero clip, read with
out-of-range defaults, is zero. -/
theorem featureMatrix_zero_entries (t m : ℕ) :
    ((featureMatrix (List.replicate CLIP_LENGTH_SAMPLES 0)).getD t []).getD m 0 = 0 := by
  rw [featureMatrix, fixLength_replicate_zero, assemble, getD_map_range]
  split
  · rw [getD_map_range]
    split
    · exact featuresOf_zero_clip t m
    · rfl
  · rw [List.getD]
    rfl

/-- C7: on the all-zero one-second waveform every entry of the feature
matrix is the well-defined finite real 0: the `amin` floor makes both
arguments of the logarithms strictly positive (no `log 0`), so no entry
is NaN or infinite, and the resulting matrix is identically zero. -/
theorem zero_input_finite :
    (∀ t m : ℕ,
      0 < max (melEnergy (List.replicate CLIP_LENGTH_SAMPLES 0) t m) amin ∧
      0 < max (gmax (melEnergy (List.replicate CLIP_LENGTH_SAMPLES 0))) amin) ∧
    (∀ t m : ℕ, featuresOf (List.replicate CLIP_LENGTH_SAMPLES 0) t m = 0) ∧
    ∀ t m : ℕ,
      ((featureMatrix (List.replicate CLIP_LENGTH_SAMPLES 0)).getD t []).getD m 0 = 0 := by
  refine ⟨?_, featuresOf_zero_clip, featureMatrix_zero_entries⟩
  intro t m
  have h := amin_pos
  constructor
  · calc (0 : ℝ) < amin := h
      _ ≤ _ := le_max_right _ _
  · calc (0 : ℝ) < amin := h
      _ ≤ _ := le_max_right _ _

/-- C9: the verifier checks shapes first and, on a mismatch, reports
both shapes and performs no value comparison (the reported outcome
carries only the two shapes); with equal shapes it declares success
exactly when every entry pair agrees within tolerance `1e-4`, reporting
the mean squared error on success, and otherwise reports the max and
mean absolute difference together with the first five values of row 0
of each matrix. -/
theorem compare_outputs_spec (A B : Mat) :
    (A.shape ≠ B.shape →
      compare_outputs A B = CompareResult.shapeMismatch A.shape B.shape) ∧
    (A.shape = B.shape →
      ((compare_outputs A B = CompareResult.success (mse A B)) ↔ closeAll A B) ∧
      (¬ closeAll A B →
        compare_outputs A B = CompareResult.valueMismatch (maxAbsDiff A B)
          (meanAbsDiff A B) (sample5 A) (sample5 B))) := by
  constructor
  · intro h
    rw [compare_outputs, if_pos h]
  · intro h
    refine ⟨⟨?_, ?_⟩, ?_⟩
    · intro hres
      by_contra hc
      rw [compare_outputs, if_neg (not_not_intro h), if_neg hc] at hres
      exact CompareResult.noConfusion hres
    · intro hc
      rw [compare_outputs, if_neg (not_not_intro h), if_pos hc]
    · intro hc
      rw [compare_outputs, if_neg (not_not_intro h), if_neg hc]

/-- C9, witness: a `1×1` vs `2×1` pair hits the shape-mismatch branch,
and a `1×1` zero matrix against itself hits the success branch. -/
theorem compare_outputs_spec_witness :
    ((Mat.mk 1 1 fun _ _ => (0 : ℝ)).shape ≠ (Mat.mk 2 1 fun _ _ => (0 : ℝ)).shape ∧
      compare_outputs (Mat.mk 1 1 fun _ _ => (0 : ℝ)) (Mat.mk 2 1 fun _ _ => (0 : ℝ))
        = CompareResult.shapeMismatch (1, 1) (2, 1)) ∧
    ((Mat.mk 1 1 fun _ _ => (0 : ℝ)).shape = (Mat.mk 1 1 fun _ _ => (0 : ℝ)).shape ∧
      closeAll (Mat.mk 1 1 fun _ _ => (0 : ℝ)) (Mat.mk 1 1 fun _ _ => (0 : ℝ)) ∧
      compare_outputs (Mat.mk 1 1 fun _ _ => (0 : ℝ)) (Mat.mk 1 1 fun _ _ => (0 : ℝ))
        = CompareResult.success (mse (Mat.mk 1 1 fun _ _ => (0 : ℝ))
            (Mat.mk 1 1 fun _ _ => (0 : ℝ)))) := by
  have hsh : (Mat.mk 1 1 fun _ _ => (0 : ℝ)).shape
      ≠ (Mat.mk 2 1 fun _ _ => (0 : ℝ)).shape := by
    rw [Mat.shape, Mat.shape]
    intro h
    exact absurd (congrArg Prod.fst h) (by norm_num)
  have hcl : closeAll (Mat.mk 1 1 fun _ _ => (0 : ℝ)) (Mat.mk 1 1 fun _ _ => (0 : ℝ)) := by
    intro t _ m _
    rw [tolerance]
    norm_num
  constructor
  · exact ⟨hsh, (compare_outputs_spec _ _).1 hsh⟩
  · exact ⟨rfl, hcl, ((compare_outputs_spec _ _).2 rfl).1.mpr hcl⟩

/-- C10: when the loader fails, `compute_log_mel_spectrogram` swallows
the error and returns the hard-coded all-zero `98 × N_MELS` matrix; 98
differs from the frame count every successful run produces (101, and
also from the spec's claimed 104), and the fallback's entries are
indistinguishable by value from the all-zero feature matrix of genuinely
silent audio, whose entries are likewise all 0. -/
theorem load_failure_fallback :
    compute_log_mel_spectrogram LoadResult.err
      = List.replicate 98 (List.replicate N_MELS 0) ∧
    (compute_log_mel_spectrogram LoadResult.err).length = 98 ∧
    (98 : ℕ) ≠ nFrames ∧ (98 : ℕ) ≠ 1 + paddedLength / HOP_LENGTH ∧
    (∀ w : List ℝ, (compute_log_mel_spectrogram (LoadResult.ok w)).length = nFrames) ∧
    (∀ t m : ℕ,
      ((compute_log_mel_spectrogram LoadResult.err).getD t []).getD m 0 = 0) ∧
    ∀ t m : ℕ,
      ((compute_log_mel_spectrogram
          (LoadResult.ok (List.replicate CLIP_LENGTH_SAMPLES 0))).getD t []).getD m 0
        = 0 := by
  refine ⟨rfl, by simp [compute_log_mel_spectrogram], by decide, by decide, ?_, ?_, ?_⟩
  · intro w
    show (featureMatrix w).length = nFrames
    rw [featureMatrix, assemble_length]
  · intro t m
    show ((List.replicate 98 (List.replicate N_MELS (0 : ℝ))).getD t []).getD m 0 = 0
    rw [getD_replicate]
    split
    · exact getD_replicate_zero _ _
    · rw [List.getD]
      rfl
  · intro t m
    exact featureMatrix_zero_entries t m

end AudioGuard
